import Mathlib

/-!
Shallow embedding of the `grid` Rust library (2D integer vectors and a dense
row-major 2D grid container) together with proofs checking the library's
specification against the code.

The embedding follows the consolidated `Grid` implementation in `src/grid.rs`
and `src/grid/iterators.rs` (i64 dimensions, `Vector` addressing) and, for the
coordinate-pair addressing claims, the `Array2D` implementation in `src/lib.rs`
(`usize` dimensions, components converted via `TryInto<usize>`).

Machine-integer conventions of the embedding:
* Rust `i64` values are modelled as `Int`; where the code relies on wrapping
  64-bit arithmetic (`Vector::perp` componentwise negation) the wrap is made
  explicit with `wrap64`.
* Rust `usize` (64-bit platform) is modelled as `Nat` with explicit `% 2^64`
  where the code can overflow, and `Int.toNat` for the `as usize` casts that the
  code only performs on non-negative values.
* A Rust panic in a fallible context is modelled by `none`; doc comments note
  each place where `none` stands for a panic rather than a returned `None`.
-/

namespace GridLib

/-- Number of values of the 64-bit platform index type `usize`. -/
def USIZE_N : Nat := 2 ^ 64

/-- Largest value of the 64-bit platform index type `usize`. -/
def USIZE_MAX : Nat := 2 ^ 64 - 1

/-- Wrap an unbounded integer into the signed 64-bit range, as Rust's wrapping
`i64` arithmetic does. -/
def wrap64 (n : Int) : Int := (n + 2 ^ 63) % 2 ^ 64 - 2 ^ 63

/-- `Vector` from `src/vector.rs`: a 2D vector with `i64` components. -/
structure Vector where
  x : Int
  y : Int
deriving DecidableEq, Repr

/-- `Vector::new` from `src/vector.rs`. -/
def Vector.new (x y : Int) : Vector := ⟨x, y⟩

/-- `Vector::perp` from `src/vector.rs`: `(x, y) -> (-y, x)`.  The negation of
the `y` component is 64-bit arithmetic, made explicit with `wrap64`. -/
def Vector.perp (v : Vector) : Vector := ⟨wrap64 (-v.y), v.x⟩

/-- `Grid<T>` from `src/grid.rs`: a contiguous row-major buffer `data` and the
dimensions `dim = (width, height)`. -/
structure Grid (T : Type) where
  data : List T
  dim : Vector
deriving DecidableEq, Repr

/-- `size` from `src/grid.rs`: panics (modelled by `none`) when a dimension is
non-positive, or when `(width as usize).checked_mul(height as usize)`
overflows; otherwise the buffer length `width * height` as `usize`. -/
def size (width height : Int) : Option Nat :=
  if width ≤ 0 ∨ height ≤ 0 then none
  else if width.toNat * height.toNat ≤ USIZE_MAX then some (width.toNat * height.toNat)
  else none

/-- `Grid::new` from `src/grid.rs`: clone-fill constructor.  `none` models the
panic of `size` on invalid dimensions. -/
def Grid.new {T : Type} (width height : Int) (value : T) : Option (Grid T) :=
  (size width height).map fun s => ⟨List.replicate s value, ⟨width, height⟩⟩

/-- `Grid::default` from `src/grid.rs`: default-fill constructor; the element
default value is passed explicitly as `d`.  `none` models the panic of `size`
on invalid dimensions. -/
def Grid.default {T : Type} (width height : Int) (d : T) : Option (Grid T) :=
  (size width height).map fun s => ⟨List.replicate s d, ⟨width, height⟩⟩

/-- `Grid::from_simple_fn` from `src/grid.rs`: thunk-fill constructor.  The
stateful `FnMut() -> T` thunk is modelled by the trace `f : Nat → T` of its
return values, call `n` yielding `f n`.  `none` models the panic of `size` on
invalid dimensions. -/
def Grid.from_simple_fn {T : Type} (width height : Int) (f : Nat → T) : Option (Grid T) :=
  (size width height).map fun s => ⟨(List.range s).map f, ⟨width, height⟩⟩

/-- `Grid::from_fn` from `src/grid.rs`: position-fill constructor; the buffer
is built by the nested loops `for y in 0..height { for x in 0..width {
data.push(f(Vector::new(x, y))) } }`.  `none` models the panic of `size` on
invalid dimensions. -/
def Grid.from_fn {T : Type} (width height : Int) (f : Vector → T) : Option (Grid T) :=
  match size width height with
  | none => none
  | some _ =>
    some ⟨(List.range height.toNat).flatMap fun (y : Nat) =>
            (List.range width.toNat).map fun (x : Nat) => f ⟨(x : Int), (y : Int)⟩,
          ⟨width, height⟩⟩

/-- `Grid::width` from `src/grid.rs`. -/
def Grid.width {T : Type} (g : Grid T) : Int := g.dim.x

/-- `Grid::height` from `src/grid.rs`. -/
def Grid.height {T : Type} (g : Grid T) : Int := g.dim.y

/-- `Grid::in_bounds` from `src/grid.rs`:
`(0..width).contains(&pos.x) && (0..height).contains(&pos.y)`. -/
def Grid.in_bounds {T : Type} (g : Grid T) (pos : Vector) : Bool :=
  decide (0 ≤ pos.x ∧ pos.x < g.width ∧ 0 ≤ pos.y ∧ pos.y < g.height)

/-- `Grid::get_index` from `src/grid.rs`:
`self.in_bounds(pos).then(|| pos.x as usize + ((pos.y as usize) * (self.width() as usize)))`.
The `usize` multiplication and addition wrap modulo `2^64`. -/
def Grid.get_index {T : Type} (g : Grid T) (pos : Vector) : Option Nat :=
  if g.in_bounds pos then
    some ((pos.x.toNat + (pos.y.toNat * g.width.toNat) % USIZE_N) % USIZE_N)
  else none

/-- `Grid::get` from `src/grid.rs`.  For a grid satisfying the construction
invariant the buffer access is always in range (see the C9 theorem); an
out-of-range buffer access would be a Rust panic, modelled by `none`. -/
def Grid.get {T : Type} (g : Grid T) (pos : Vector) : Option T :=
  (g.get_index pos).bind fun i => g.data[i]?

/-- `Grid::set` from `src/grid.rs`: replaces the cell through `get_mut` and
`mem::replace`, returning the previous value, or `none` leaving the grid
unchanged when out of bounds. -/
def Grid.set {T : Type} (g : Grid T) (pos : Vector) (value : T) : Option T × Grid T :=
  match g.get_index pos with
  | none => (none, g)
  | some i => (g.data[i]?, ⟨g.data.set i value, g.dim⟩)

/-- `Grid::iter` from `src/iterators.rs` collected to a list: slice iteration
over the row-major buffer. -/
def Grid.iter {T : Type} (g : Grid T) : List T := g.data

/-- `Grid::map` from `src/grid.rs`: pushes `f value` for every value yielded by
`iter`, keeping the dimensions. -/
def Grid.map {T U : Type} (g : Grid T) (f : T → U) : Grid U :=
  ⟨g.data.map f, g.dim⟩

/-- Construction invariant of `Grid` (spec §3): positive dimensions, buffer
length `width * height`, and the product fitting in `usize`. -/
def Grid.Wf {T : Type} (g : Grid T) : Prop :=
  0 < g.dim.x ∧ 0 < g.dim.y ∧
    g.data.length = g.dim.x.toNat * g.dim.y.toNat ∧
    g.dim.x.toNat * g.dim.y.toNat ≤ USIZE_MAX

instance {T : Type} (g : Grid T) : Decidable g.Wf := by
  unfold Grid.Wf; infer_instance

/-- `Positions` from `src/grid/iterators.rs`: the grid-independent position
iterator state, holding the next position and the grid dimensions. -/
structure Positions where
  pos : Vector
  dim : Vector
deriving DecidableEq, Repr

/-- `<Positions as Iterator>::next` from `src/grid/iterators.rs`. -/
def Positions.next (s : Positions) : Option (Vector × Positions) :=
  if s.pos.y ≠ s.dim.y then
    some (s.pos,
      if s.pos.x + 1 = s.dim.x then
        ⟨⟨0, s.pos.y + 1⟩, s.dim⟩
      else
        ⟨⟨s.pos.x + 1, s.pos.y⟩, s.dim⟩)
  else none

/-- `Grid::positions` from `src/grid/iterators.rs`. -/
def Grid.positions {T : Type} (g : Grid T) : Positions :=
  ⟨⟨0, 0⟩, g.dim⟩

/-- Run the `Positions` iterator for at most `fuel` steps, collecting the
yielded positions and returning the final iterator state. -/
def posRun : Nat → Positions → List Vector × Positions
  | 0, s => ([], s)
  | n + 1, s =>
    match Positions.next s with
    | none => ([], s)
    | some (p, t) =>
      let r := posRun n t
      (p :: r.1, r.2)

/-- The row-major position list `(0,0), (1,0), …, (width-1, height-1)`:
`y` outer, `x` inner. -/
def rowMajor (width height : Int) : List Vector :=
  (List.range height.toNat).flatMap fun (y : Nat) =>
    (List.range width.toNat).map fun (x : Nat) => ⟨(x : Int), (y : Int)⟩

/-- Concatenation of a list of strings, as the sequential `write!` calls of the
`Debug` implementation accumulate output. -/
def concatAll : List String → String
  | [] => ""
  | s :: rest => s ++ concatAll rest

/-- `" ".repeat(longest - s.len()) + s` from the `Debug` implementation in
`src/grid.rs`: the cell string preceded by enough spaces to reach width `n`. -/
def padLeft (n : Nat) (s : String) : String :=
  String.mk (List.replicate (n - s.length) ' ') ++ s

/-- `strings.iter().map(String::len).max().unwrap()` from the `Debug`
implementation in `src/grid.rs`.  For the empty list (impossible for an
invariant-satisfying grid, whose buffer is non-empty) the Rust `unwrap` would
panic; the model returns `0`. -/
def longestLen (strs : List String) : Nat :=
  (strs.map String.length).foldl max 0

/-- `impl Debug for Grid<T>` from `src/grid.rs`, with the element formatter
passed explicitly as `toStr`.  Header `"<width>x<height>"` then, per row, each
cell of `self.map(ToString::to_string)` preceded by its padding, a `","` after
every non-last column and a `"\n"` after every non-last row. -/
def debugFmt {T : Type} (g : Grid T) (toStr : T → String) : String :=
  let strings := g.map toStr
  let longest := longestLen strings.data
  toString g.dim.x ++ "x" ++ toString g.dim.y ++ "\n" ++
    concatAll ((List.range g.dim.y.toNat).map fun (y : Nat) =>
      concatAll ((List.range g.dim.x.toNat).map fun (x : Nat) =>
        padLeft longest ((strings.get ⟨(x : Int), (y : Int)⟩).getD "") ++
          if x ≠ g.dim.x.toNat - 1 then "," else "") ++
        if y ≠ g.dim.y.toNat - 1 then "\n" else "")

/-- Join a list of strings with the separator `sep` between consecutive
elements. -/
def sepJoin (sep : String) : List String → String
  | [] => ""
  | [s] => s
  | s :: t :: rest => s ++ sep ++ sepJoin sep (t :: rest)

/-- Modelled from the spec's words (amended): a header line
`"<width>x<height>"`, then one line per row in which each cell's textual
representation is left-padded with spaces (right-aligned) to the width of the
longest cell string in the grid, a comma between consecutive columns, a
newline between rows and no trailing newline. -/
def debugFmtSpec {T : Type} (g : Grid T) (toStr : T → String) : String :=
  toString g.dim.x ++ "x" ++ toString g.dim.y ++ "\n" ++
    sepJoin "\n" ((List.range g.dim.y.toNat).map fun (y : Nat) =>
      sepJoin "," ((List.range g.dim.x.toNat).map fun (x : Nat) =>
        padLeft (longestLen (g.data.map toStr))
          (((g.get ⟨(x : Int), (y : Int)⟩).map toStr).getD "")))

/-- Modelled from the claim's words as stated: like `debugFmtSpec` but with
each cell's textual representation right-padded with spaces (spaces appended
after the cell) to the width of the longest cell string. -/
def debugFmtRightPad {T : Type} (g : Grid T) (toStr : T → String) : String :=
  toString g.dim.x ++ "x" ++ toString g.dim.y ++ "\n" ++
    sepJoin "\n" ((List.range g.dim.y.toNat).map fun (y : Nat) =>
      sepJoin "," ((List.range g.dim.x.toNat).map fun (x : Nat) =>
        (((g.get ⟨(x : Int), (y : Int)⟩).map toStr).getD "") ++
          String.mk (List.replicate
            (longestLen (g.data.map toStr) -
              (((g.get ⟨(x : Int), (y : Int)⟩).map toStr).getD "").length) ' ')))

/-- `Array2D<T>` from `src/lib.rs`: row-major buffer with `usize` width and
height, addressed by coordinate pairs whose components convert to `usize`. -/
structure Array2D (T : Type) where
  data : List T
  width : Nat
  height : Nat
deriving DecidableEq, Repr

/-- `size` from `src/lib.rs`: `width.checked_mul(height)`, panicking (modelled
by `none`) on `usize` overflow; no positivity check. -/
def sizeA (width height : Nat) : Option Nat :=
  if width * height ≤ USIZE_MAX then some (width * height) else none

/-- `Array2D::new` from `src/lib.rs`.  `none` models the panic of `size` on
overflowing dimensions. -/
def Array2D.new {T : Type} (width height : Nat) (value : T) : Option (Array2D T) :=
  (sizeA width height).map fun s => ⟨List.replicate s value, width, height⟩

/-- `Array2D::get_pos` from `src/lib.rs`: converts both components with
`try_into().ok()?` — the conversion `C → Option usize` is passed explicitly as
`conv` — then checks the converted coordinates against the dimensions. -/
def Array2D.get_pos {T C : Type} (a : Array2D T) (conv : C → Option Nat)
    (pos : C × C) : Option (Nat × Nat) :=
  match conv pos.1, conv pos.2 with
  | some x, some y => if x ≥ a.width ∨ y ≥ a.height then none else some (x, y)
  | _, _ => none

/-- `Array2D::in_bounds` from `src/lib.rs`: `self.get_pos(pos).is_some()`. -/
def Array2D.in_bounds {T C : Type} (a : Array2D T) (conv : C → Option Nat)
    (pos : C × C) : Bool :=
  (a.get_pos conv pos).isSome

/-- `Array2D::get` from `src/lib.rs`: `&self.data[x + y * self.width]` after
`get_pos`.  An out-of-range buffer access (impossible when the buffer has its
invariant length) would be a Rust panic, modelled by `none`. -/
def Array2D.get {T C : Type} (a : Array2D T) (conv : C → Option Nat)
    (pos : C × C) : Option T :=
  (a.get_pos conv pos).bind fun q => a.data[q.1 + q.2 * a.width]?

/-- `Array2D::get_mut` from `src/lib.rs`, modelled by the value it would give
mutable access to. -/
def Array2D.get_mut {T C : Type} (a : Array2D T) (conv : C → Option Nat)
    (pos : C × C) : Option T :=
  (a.get_pos conv pos).bind fun q => a.data[q.1 + q.2 * a.width]?

/-- `Array2D::set` from `src/lib.rs`: `mem::replace` of the cell, returning the
previous value, or `none` leaving the array unchanged when `get_pos` fails. -/
def Array2D.set {T C : Type} (a : Array2D T) (conv : C → Option Nat)
    (pos : C × C) (value : T) : Option T × Array2D T :=
  match a.get_pos conv pos with
  | none => (none, a)
  | some q =>
    (a.data[q.1 + q.2 * a.width]?,
     ⟨a.data.set (q.1 + q.2 * a.width) value, a.width, a.height⟩)

/-- `impl Index for Array2D` from `src/lib.rs`:
`self.get(index).expect("position out of bounds")` — here `none` models the
fatal panic on an out-of-bounds position. -/
def Array2D.index {T C : Type} (a : Array2D T) (conv : C → Option Nat)
    (pos : C × C) : Option T :=
  a.get conv pos

/-- The `TryInto<usize>` conversion for `i64` on a 64-bit platform: succeeds
exactly on non-negative values. -/
def i64ToUsize (c : Int) : Option Nat :=
  if 0 ≤ c then some c.toNat else none

/-! ## Supporting lemmas -/

lemma wrap64_neg_neg (x : Int) (h1 : -(2 ^ 63) ≤ x) (h2 : x < 2 ^ 63) :
    wrap64 (-(wrap64 (-x))) = x := by
  unfold wrap64
  omega

lemma size_none_iff (w h : Int) :
    size w h = none ↔ w ≤ 0 ∨ h ≤ 0 ∨ USIZE_MAX < w.toNat * h.toNat := by
  unfold size
  by_cases h1 : w ≤ 0 ∨ h ≤ 0
  · simp [h1]
    tauto
  · by_cases h2 : w.toNat * h.toNat ≤ USIZE_MAX
    · simp [h1, h2]
      omega
    · simp [h1, h2]
      omega

lemma size_some (w h : Int) (s : Nat) (hs : size w h = some s) :
    s = w.toNat * h.toNat ∧ 0 < w ∧ 0 < h ∧ w.toNat * h.toNat ≤ USIZE_MAX := by
  unfold size at hs
  by_cases h1 : w ≤ 0 ∨ h ≤ 0
  · simp [h1] at hs
  · by_cases h2 : w.toNat * h.toNat ≤ USIZE_MAX
    · simp [h1, h2] at hs
      refine ⟨hs.symm, ?_, ?_, h2⟩ <;> omega
    · simp [h1, h2] at hs

lemma len_flatMap_const {A B : Type} (f : A → List B) (w : Nat) :
    ∀ (l : List A), (∀ a ∈ l, (f a).length = w) → (l.flatMap f).length = l.length * w := by
  intro l
  induction l with
  | nil => simp
  | cons a t ih =>
    intro hf
    rw [List.flatMap_cons, List.length_append, hf a (by simp), ih fun b hb => hf b (by simp [hb])]
    simp [Nat.succ_mul]
    omega

lemma index_lt {w h x y : Nat} (hx : x < w) (hy : y < h) : x + y * w < w * h := by
  calc x + y * w < w + y * w := by omega
    _ = (y + 1) * w := by ring
    _ ≤ h * w := Nat.mul_le_mul_right w hy
    _ = w * h := Nat.mul_comm h w

lemma in_bounds_iff {T : Type} (g : Grid T) (p : Vector) :
    g.in_bounds p = true ↔ 0 ≤ p.x ∧ p.x < g.dim.x ∧ 0 ≤ p.y ∧ p.y < g.dim.y := by
  simp [Grid.in_bounds, Grid.width, Grid.height]

lemma get_index_wf {T : Type} (g : Grid T) (p : Vector) (hWf : g.Wf)
    (hib : g.in_bounds p = true) :
    g.get_index p = some (p.x.toNat + p.y.toNat * g.dim.x.toNat) ∧
      p.x.toNat + p.y.toNat * g.dim.x.toNat < g.data.length := by
  obtain ⟨hw, hh, hlen, hmax⟩ := hWf
  obtain ⟨hx0, hxw, hy0, hyh⟩ := (in_bounds_iff g p).mp hib
  have hx : p.x.toNat < g.dim.x.toNat := by omega
  have hy : p.y.toNat < g.dim.y.toNat := by omega
  have hidx : p.x.toNat + p.y.toNat * g.dim.x.toNat < g.dim.x.toNat * g.dim.y.toNat :=
    index_lt hx hy
  have hN : g.dim.x.toNat * g.dim.y.toNat < USIZE_N := by
    unfold USIZE_MAX at hmax
    unfold USIZE_N
    omega
  constructor
  · unfold Grid.get_index
    rw [if_pos hib]
    have h1 : (p.y.toNat * g.width.toNat) % USIZE_N = p.y.toNat * g.dim.x.toNat :=
      Nat.mod_eq_of_lt (by unfold Grid.width; omega)
    rw [h1, Nat.mod_eq_of_lt (by omega)]
  · omega

lemma get_wf {T : Type} (g : Grid T) (p : Vector) (hWf : g.Wf) (hib : g.in_bounds p = true) :
    g.get p = g.data[p.x.toNat + p.y.toNat * g.dim.x.toNat]? ∧ (g.get p).isSome = true := by
  obtain ⟨hidx, hlt⟩ := get_index_wf g p hWf hib
  unfold Grid.get
  rw [hidx]
  exact ⟨rfl, by simp [List.getElem?_eq_getElem hlt]⟩

lemma get_oob {T : Type} (g : Grid T) (p : Vector) (hib : g.in_bounds p = false) :
    g.get p = none := by
  unfold Grid.get Grid.get_index
  rw [hib]
  rfl

lemma set_oob {T : Type} (g : Grid T) (p : Vector) (v : T) (hib : g.in_bounds p = false) :
    g.set p v = (none, g) := by
  unfold Grid.set Grid.get_index
  rw [hib]
  rfl

/-! ## Claim theorems -/

/-- C10: for every `Vector` `a` whose components are in the signed 64-bit
range, applying the quarter-turn rotation `perp`, `(x, y) -> (-y, x)`, four
times returns `a` under wrapping 64-bit arithmetic. -/
theorem spec_c10 (a : Vector) (h1 : -(2 ^ 63) ≤ a.x) (h2 : a.x < 2 ^ 63)
    (h3 : -(2 ^ 63) ≤ a.y) (h4 : a.y < 2 ^ 63) :
    a.perp.perp.perp.perp = a := by
  obtain ⟨x, y⟩ := a
  simp only [Vector.perp]
  rw [Vector.mk.injEq]
  exact ⟨wrap64_neg_neg x h1 h2, wrap64_neg_neg y h3 h4⟩

/-- Witness for C10 at `a = (3, -5)`. -/
theorem spec_c10_witness :
    (⟨3, -5⟩ : Vector).perp.perp.perp.perp = ⟨3, -5⟩ :=
  spec_c10 ⟨3, -5⟩ (by norm_num) (by norm_num) (by norm_num) (by norm_num)

/-- C6: each of the four grid constructors fails fatally (modelled by `none`)
exactly when a dimension is non-positive or the `usize` product
`width * height` overflows, and otherwise returns a grid with the requested
dimensions whose buffer is fully populated with `width * height` elements. -/
theorem spec_c6 {T : Type} (width height : Int) (v d : T) (ft : Nat → T) (fp : Vector → T) :
    ((Grid.new width height v = none ↔
        width ≤ 0 ∨ height ≤ 0 ∨ USIZE_MAX < width.toNat * height.toNat) ∧
      ∀ g, Grid.new width height v = some g →
        g.dim = ⟨width, height⟩ ∧ g.data.length = width.toNat * height.toNat) ∧
    ((Grid.default width height d = none ↔
        width ≤ 0 ∨ height ≤ 0 ∨ USIZE_MAX < width.toNat * height.toNat) ∧
      ∀ g, Grid.default width height d = some g →
        g.dim = ⟨width, height⟩ ∧ g.data.length = width.toNat * height.toNat) ∧
    ((Grid.from_simple_fn width height ft = none ↔
        width ≤ 0 ∨ height ≤ 0 ∨ USIZE_MAX < width.toNat * height.toNat) ∧
      ∀ g, Grid.from_simple_fn width height ft = some g →
        g.dim = ⟨width, height⟩ ∧ g.data.length = width.toNat * height.toNat) ∧
    ((Grid.from_fn width height fp = none ↔
        width ≤ 0 ∨ height ≤ 0 ∨ USIZE_MAX < width.toNat * height.toNat) ∧
      ∀ g, Grid.from_fn width height fp = some g →
        g.dim = ⟨width, height⟩ ∧ g.data.length = width.toNat * height.toNat) := by
  refine ⟨⟨?_, ?_⟩, ⟨?_, ?_⟩, ⟨?_, ?_⟩, ⟨?_, ?_⟩⟩
  · rw [← size_none_iff]
    unfold Grid.new
    cases size width height <;> simp
  · intro g hg
    unfold Grid.new at hg
    cases hs : size width height with
    | none => rw [hs] at hg; cases hg
    | some s =>
      rw [hs] at hg
      obtain ⟨h1, _, _, _⟩ := size_some width height s hs
      cases hg
      simp [h1]
  · rw [← size_none_iff]
    unfold Grid.default
    cases size width height <;> simp
  · intro g hg
    unfold Grid.default at hg
    cases hs : size width height with
    | none => rw [hs] at hg; cases hg
    | some s =>
      rw [hs] at hg
      obtain ⟨h1, _, _, _⟩ := size_some width height s hs
      cases hg
      simp [h1]
  · rw [← size_none_iff]
    unfold Grid.from_simple_fn
    cases size width height <;> simp
  · intro g hg
    unfold Grid.from_simple_fn at hg
    cases hs : size width height with
    | none => rw [hs] at hg; cases hg
    | some s =>
      rw [hs] at hg
      obtain ⟨h1, _, _, _⟩ := size_some width height s hs
      cases hg
      simp [h1]
  · rw [← size_none_iff]
    unfold Grid.from_fn
    cases size width height <;> simp
  · intro g hg
    unfold Grid.from_fn at hg
    cases hs : size width height with
    | none => rw [hs] at hg; cases hg
    | some s =>
      rw [hs] at hg
      obtain ⟨h1, hw, hh, _⟩ := size_some width height s hs
      cases hg
      refine ⟨rfl, ?_⟩
      have hlen := len_flatMap_const
        (fun (y : Nat) => (List.range width.toNat).map fun (x : Nat) => fp ⟨(x : Int), (y : Int)⟩)
        width.toNat (List.range height.toNat)
        (fun a _ => by rw [List.length_map, List.length_range])
      rw [hlen]
      simp [Nat.mul_comm]

/-- Witness for C6 at `width = 3`, `height = 2`. -/
theorem spec_c6_witness :
    (⟨List.replicate 6 0, ⟨3, 2⟩⟩ : Grid Nat).dim = ⟨3, 2⟩ ∧
      (List.replicate 6 (0 : Nat)).length = (3 : Int).toNat * (2 : Int).toNat :=
  (spec_c6 3 2 0 0 (fun _ => 0) (fun _ => 0)).1.2 ⟨List.replicate 6 0, ⟨3, 2⟩⟩ (by decide)

/-- C2: `in_bounds p` holds exactly when `0 ≤ p.x < width` and
`0 ≤ p.y < height`, and `get p` returns a value exactly when `in_bounds p`
holds. -/
theorem spec_c2 {T : Type} (g : Grid T) (p : Vector) (hWf : g.Wf) :
    (g.in_bounds p = true ↔ 0 ≤ p.x ∧ p.x < g.width ∧ 0 ≤ p.y ∧ p.y < g.height) ∧
      ((g.get p).isSome = true ↔ g.in_bounds p = true) := by
  refine ⟨in_bounds_iff g p, ⟨?_, ?_⟩⟩
  · intro hs
    by_contra hib
    rw [Bool.not_eq_true] at hib
    rw [get_oob g p hib] at hs
    cases hs
  · intro hib
    exact (get_wf g p hWf hib).2

/-- Witness for C2 at a concrete 3×2 grid and position `(1, 1)`. -/
theorem spec_c2_witness :
    ((⟨List.replicate 6 0, ⟨3, 2⟩⟩ : Grid Nat).in_bounds ⟨1, 1⟩ = true ↔
        0 ≤ (1 : Int) ∧ (1 : Int) < (⟨List.replicate 6 0, ⟨3, 2⟩⟩ : Grid Nat).width ∧
          0 ≤ (1 : Int) ∧ (1 : Int) < (⟨List.replicate 6 0, ⟨3, 2⟩⟩ : Grid Nat).height) ∧
      (((⟨List.replicate 6 0, ⟨3, 2⟩⟩ : Grid Nat).get ⟨1, 1⟩).isSome = true ↔
        (⟨List.replicate 6 0, ⟨3, 2⟩⟩ : Grid Nat).in_bounds ⟨1, 1⟩ = true) :=
  spec_c2 ⟨List.replicate 6 0, ⟨3, 2⟩⟩ ⟨1, 1⟩ (by decide)

/-- C3: for an in-bounds position, `set p v` returns the previous value at `p`
and afterwards `get p` yields `v`; for an out-of-bounds position, `set p v`
returns `none` and leaves the grid unchanged. -/
theorem spec_c3 {T : Type} (g : Grid T) (p : Vector) (v : T) (hWf : g.Wf) :
    (g.in_bounds p = true →
        (g.set p v).1 = g.get p ∧ (g.get p).isSome = true ∧
          ((g.set p v).2).get p = some v ∧ ((g.set p v).2).dim = g.dim) ∧
      (g.in_bounds p = false → g.set p v = (none, g)) := by
  refine ⟨?_, set_oob g p v⟩
  intro hib
  obtain ⟨hidx, hlt⟩ := get_index_wf g p hWf hib
  obtain ⟨hget, hsome⟩ := get_wf g p hWf hib
  have hset : g.set p v =
      (g.data[p.x.toNat + p.y.toNat * g.dim.x.toNat]?,
        ⟨g.data.set (p.x.toNat + p.y.toNat * g.dim.x.toNat) v, g.dim⟩) := by
    unfold Grid.set
    rw [hidx]
  refine ⟨by rw [hset, hget], hsome, ?_, by rw [hset]⟩
  have hWf2 : (⟨g.data.set (p.x.toNat + p.y.toNat * g.dim.x.toNat) v, g.dim⟩ : Grid T).Wf := by
    obtain ⟨hw, hh, hlen, hmax⟩ := hWf
    exact ⟨hw, hh, by simpa using hlen, hmax⟩
  have hib2 : (⟨g.data.set (p.x.toNat + p.y.toNat * g.dim.x.toNat) v, g.dim⟩ : Grid T).in_bounds
      p = true := by
    rw [in_bounds_iff] at hib ⊢
    exact hib
  rw [hset]
  rw [(get_wf _ p hWf2 hib2).1]
  simpa using List.getElem?_set_self (l := g.data)
    (i := p.x.toNat + p.y.toNat * g.dim.x.toNat) (a := v) hlt

/-- Witness for C3 at a concrete 3×2 grid, position `(1, 1)`, value `7`. -/
theorem spec_c3_witness :
    (((⟨List.replicate 6 0, ⟨3, 2⟩⟩ : Grid Nat).in_bounds ⟨1, 1⟩ = true →
        ((⟨List.replicate 6 0, ⟨3, 2⟩⟩ : Grid Nat).set ⟨1, 1⟩ 7).1 =
            (⟨List.replicate 6 0, ⟨3, 2⟩⟩ : Grid Nat).get ⟨1, 1⟩ ∧
          ((⟨List.replicate 6 0, ⟨3, 2⟩⟩ : Grid Nat).get ⟨1, 1⟩).isSome = true ∧
          (((⟨List.replicate 6 0, ⟨3, 2⟩⟩ : Grid Nat).set ⟨1, 1⟩ 7).2).get ⟨1, 1⟩ = some 7 ∧
          (((⟨List.replicate 6 0, ⟨3, 2⟩⟩ : Grid Nat).set ⟨1, 1⟩ 7).2).dim =
            (⟨List.replicate 6 0, ⟨3, 2⟩⟩ : Grid Nat).dim) ∧
      ((⟨List.replicate 6 0, ⟨3, 2⟩⟩ : Grid Nat).in_bounds ⟨1, 1⟩ = false →
        (⟨List.replicate 6 0, ⟨3, 2⟩⟩ : Grid Nat).set ⟨1, 1⟩ 7 =
          (none, ⟨List.replicate 6 0, ⟨3, 2⟩⟩))) :=
  spec_c3 ⟨List.replicate 6 0, ⟨3, 2⟩⟩ ⟨1, 1⟩ 7 (by decide)

lemma flatMap_getElem {A B : Type} (f : A → List B) (w : Nat) (hw : ∀ a, (f a).length = w) :
    ∀ (l : List A) (i x : Nat) (hi : i < l.length), x < w →
      (l.flatMap f)[x + i * w]? = (f (l.get ⟨i, hi⟩))[x]? := by
  intro l
  induction l with
  | nil => intro i x hi _; simp at hi
  | cons a t ih =>
    intro i x hi hx
    cases i with
    | zero =>
      rw [List.flatMap_cons, Nat.zero_mul, Nat.add_zero, List.getElem?_append,
        if_pos (by rw [hw a]; exact hx)]
      rfl
    | succ j =>
      have hsplit : x + (j + 1) * w = (f a).length + (x + j * w) := by
        rw [hw a]
        ring
      rw [List.flatMap_cons, hsplit, List.getElem?_append_right (by omega)]
      have : (f a).length + (x + j * w) - (f a).length = x + j * w := by omega
      rw [this]
      exact ih j x (by simpa using hi) hx

lemma from_fn_get {T : Type} (width height : Int) (f : Vector → T) (g : Grid T)
    (hg : Grid.from_fn width height f = some g) (x y : Int)
    (hx0 : 0 ≤ x) (hxw : x < width) (hy0 : 0 ≤ y) (hyh : y < height) :
    g.get ⟨x, y⟩ = some (f ⟨x, y⟩) ∧ g.Wf := by
  unfold Grid.from_fn at hg
  cases hs : size width height with
  | none => rw [hs] at hg; cases hg
  | some s =>
    rw [hs] at hg
    obtain ⟨h1, hw, hh, hmax⟩ := size_some width height s hs
    cases hg
    have hlen := len_flatMap_const
      (fun (y : Nat) => (List.range width.toNat).map fun (x : Nat) => f ⟨(x : Int), (y : Int)⟩)
      width.toNat (List.range height.toNat)
      (fun a _ => by rw [List.length_map, List.length_range])
    have hWf : (⟨(List.range height.toNat).flatMap fun (y : Nat) =>
        (List.range width.toNat).map fun (x : Nat) => f ⟨(x : Int), (y : Int)⟩,
        ⟨width, height⟩⟩ : Grid T).Wf := by
      refine ⟨hw, hh, ?_, hmax⟩
      simpa [Nat.mul_comm] using hlen
    refine ⟨?_, hWf⟩
    have hib : (⟨(List.range height.toNat).flatMap fun (y : Nat) =>
        (List.range width.toNat).map fun (x : Nat) => f ⟨(x : Int), (y : Int)⟩,
        ⟨width, height⟩⟩ : Grid T).in_bounds ⟨x, y⟩ = true := by
      rw [in_bounds_iff]
      exact ⟨hx0, hxw, hy0, hyh⟩
    rw [(get_wf _ _ hWf hib).1]
    have hge := flatMap_getElem
      (fun (y : Nat) => (List.range width.toNat).map fun (x : Nat) => f ⟨(x : Int), (y : Int)⟩)
      width.toNat
      (fun a => by rw [List.length_map, List.length_range])
      (List.range height.toNat) y.toNat x.toNat
      (by rw [List.length_range]; omega) (by omega)
    simp only [hge]
    rw [List.get_eq_getElem, List.getElem_range, List.getElem?_map,
      List.getElem?_range (by omega)]
    have hv : (⟨(x.toNat : Int), (y.toNat : Int)⟩ : Vector) = ⟨x, y⟩ := by
      rw [Vector.mk.injEq]
      constructor <;> omega
    simp only [Option.map_some']
    rw [hv]

/-- C1: for every invariant-satisfying grid, the element at an in-bounds
position `(x, y)` resides at linear index `x + y * width` of the row-major
buffer visited by the value iterator; concretely `Grid::new(3, 2, 0)` followed
by `set((1,0), 1)` and `set((0,1), 2)` iterates as `[0, 1, 0, 2, 0, 0]`. -/
theorem spec_c1 :
    (∀ (T : Type) (g : Grid T) (p : Vector), g.Wf → g.in_bounds p = true →
        g.get p = g.data[p.x.toNat + p.y.toNat * g.dim.x.toNat]?) ∧
      ((Grid.new 3 2 (0 : Nat)).map fun g =>
          (((g.set ⟨1, 0⟩ 1).2).set ⟨0, 1⟩ 2).2.iter) = some [0, 1, 0, 2, 0, 0] := by
  exact ⟨fun T g p hWf hib => (get_wf g p hWf hib).1, by decide⟩

/-- Witness for C1's general part at a concrete grid and position `(1, 0)`. -/
theorem spec_c1_witness :
    (⟨[0, 1, 0, 2, 0, 0], ⟨3, 2⟩⟩ : Grid Nat).get ⟨1, 0⟩ =
      [0, 1, 0, 2, 0, 0][(1 : Int).toNat + (0 : Int).toNat * (3 : Int).toNat]? :=
  spec_c1.1 Nat ⟨[0, 1, 0, 2, 0, 0], ⟨3, 2⟩⟩ ⟨1, 0⟩ (by decide) (by decide)

/-- C9: for a grid produced by a constructor (positive dimensions, product
fitting in `usize`) and an in-bounds position, the linear index
`x + y * width` computed by `get_index` does not wrap modulo `2^64` and is
strictly below the buffer length, so `get`, `get_mut` and `set` never trap on
the buffer access. -/
theorem spec_c9 {T : Type} (g : Grid T) (p : Vector) (v : T) (hWf : g.Wf)
    (hib : g.in_bounds p = true) :
    p.x.toNat + p.y.toNat * g.dim.x.toNat ≤ USIZE_MAX ∧
      p.x.toNat + p.y.toNat * g.dim.x.toNat < g.data.length ∧
      g.get_index p = some (p.x.toNat + p.y.toNat * g.dim.x.toNat) ∧
      (g.get p).isSome = true ∧
      ((g.set p v).1).isSome = true := by
  obtain ⟨hidx, hlt⟩ := get_index_wf g p hWf hib
  obtain ⟨hget, hsome⟩ := get_wf g p hWf hib
  refine ⟨?_, hlt, hidx, hsome, ?_⟩
  · obtain ⟨hw, hh, hlen, hmax⟩ := hWf
    omega
  · have hset : (g.set p v).1 = g.data[p.x.toNat + p.y.toNat * g.dim.x.toNat]? := by
      unfold Grid.set
      rw [hidx]
    rw [hset, List.getElem?_eq_getElem hlt]
    rfl

/-- Witness for C9 at a concrete 3×2 grid, position `(2, 1)`, value `5`. -/
theorem spec_c9_witness :
    (2 : Int).toNat + (1 : Int).toNat * (⟨List.replicate 6 0, ⟨3, 2⟩⟩ : Grid Nat).dim.x.toNat ≤
        USIZE_MAX ∧
      (2 : Int).toNat + (1 : Int).toNat * (⟨List.replicate 6 0, ⟨3, 2⟩⟩ : Grid Nat).dim.x.toNat <
        (⟨List.replicate 6 0, ⟨3, 2⟩⟩ : Grid Nat).data.length ∧
      (⟨List.replicate 6 0, ⟨3, 2⟩⟩ : Grid Nat).get_index ⟨2, 1⟩ =
        some ((2 : Int).toNat +
          (1 : Int).toNat * (⟨List.replicate 6 0, ⟨3, 2⟩⟩ : Grid Nat).dim.x.toNat) ∧
      ((⟨List.replicate 6 0, ⟨3, 2⟩⟩ : Grid Nat).get ⟨2, 1⟩).isSome = true ∧
      (((⟨List.replicate 6 0, ⟨3, 2⟩⟩ : Grid Nat).set ⟨2, 1⟩ 5).1).isSome = true :=
  spec_c9 ⟨List.replicate 6 0, ⟨3, 2⟩⟩ ⟨2, 1⟩ 5 (by decide) (by decide)

/-- C5: `from_fn` fills every cell from its own position — the buffer is
exactly `f` mapped over the row-major position list (one call per position, in
row-major order) and `get (x, y)` yields `f (x, y)` for every in-bounds
position; concretely `Grid::from_fn(8, 10, |p| p.x + p.y)` holds `8` at
`(5, 3)` and `16` at `(7, 9)`. -/
theorem spec_c5 :
    (∀ (T : Type) (width height : Int) (f : Vector → T) (g : Grid T),
        Grid.from_fn width height f = some g →
          g.data = (rowMajor width height).map f ∧
            ∀ x y : Int, 0 ≤ x → x < width → 0 ≤ y → y < height →
              g.get ⟨x, y⟩ = some (f ⟨x, y⟩)) ∧
      ((Grid.from_fn 8 10 fun p => p.x + p.y).map fun g =>
          (g.get ⟨5, 3⟩, g.get ⟨7, 9⟩)) = some (some 8, some 16) := by
  refine ⟨?_, by decide⟩
  intro T width height f g hg
  constructor
  · unfold Grid.from_fn at hg
    cases hs : size width height with
    | none => rw [hs] at hg; cases hg
    | some s =>
      rw [hs] at hg
      cases hg
      rw [rowMajor, List.map_flatMap]
      simp [List.map_map]
      rfl
  · intro x y hx0 hxw hy0 hyh
    exact (from_fn_get width height f g hg x y hx0 hxw hy0 hyh).1

/-- Witness for C5's general part at `from_fn 8 10 (p.x + p.y)`, position
`(5, 3)`. -/
theorem spec_c5_witness :
    ∃ g : Grid Int, Grid.from_fn 8 10 (fun p => p.x + p.y) = some g ∧
      g.get ⟨5, 3⟩ = some ((fun p : Vector => p.x + p.y) ⟨5, 3⟩) := by
  cases hg : Grid.from_fn 8 10 (fun p : Vector => p.x + p.y) with
  | none => exact absurd hg (by decide)
  | some g =>
    exact ⟨g, rfl, ((spec_c5.1 Int 8 10 (fun p => p.x + p.y) g hg).2 5 3
      (by norm_num) (by norm_num) (by norm_num) (by norm_num))⟩

lemma posRun_of_next_none (s : Positions) (h : Positions.next s = none) :
    ∀ n, posRun n s = ([], s) := by
  intro n
  cases n with
  | zero => rfl
  | succ k => simp [posRun, h]

lemma posRun_add (a b : Nat) : ∀ s : Positions,
    posRun (a + b) s =
      ((posRun a s).1 ++ (posRun b (posRun a s).2).1, (posRun b (posRun a s).2).2) := by
  induction a with
  | zero =>
    intro s
    rw [Nat.zero_add]
    simp [posRun]
  | succ k ih =>
    intro s
    rw [Nat.succ_add]
    cases hn : Positions.next s with
    | none =>
      simp [posRun, hn, posRun_of_next_none s hn]
    | some pt =>
      obtain ⟨p, t⟩ := pt
      simp [posRun, hn, ih t]

lemma posRun_succ (n : Nat) (s : Positions) :
    posRun (n + 1) s =
      match Positions.next s with
      | none => ([], s)
      | some (p, t) => (p :: (posRun n t).1, (posRun n t).2) := rfl

lemma posRun_row (k : Nat) : ∀ x y w h : Int, x + (k : Int) + 1 = w → y ≠ h →
    posRun (k + 1) ⟨⟨x, y⟩, ⟨w, h⟩⟩ =
      (((List.range (k + 1)).map fun (i : Nat) => ⟨x + (i : Int), y⟩),
        ⟨⟨0, y + 1⟩, ⟨w, h⟩⟩) := by
  induction k with
  | zero =>
    intro x y w h hxw hyh
    have hx1 : x + 1 = w := by push_cast at hxw; omega
    have hr1 : List.range 1 = [0] := rfl
    simp [posRun, Positions.next, hyh, hx1, hr1]
  | succ j ih =>
    intro x y w h hxw hyh
    have hx1 : ¬(x + 1 = w) := by push_cast at hxw ⊢; omega
    have hnext : Positions.next ⟨⟨x, y⟩, ⟨w, h⟩⟩ = some (⟨x, y⟩, ⟨⟨x + 1, y⟩, ⟨w, h⟩⟩) := by
      simp [Positions.next, hyh, hx1]
    have ih2 := ih (x + 1) y w h (by push_cast at hxw ⊢; omega) hyh
    have hstep : posRun (j + 1 + 1) ⟨⟨x, y⟩, ⟨w, h⟩⟩ =
        (⟨x, y⟩ :: (posRun (j + 1) ⟨⟨x + 1, y⟩, ⟨w, h⟩⟩).1,
          (posRun (j + 1) ⟨⟨x + 1, y⟩, ⟨w, h⟩⟩).2) := by
      rw [posRun_succ, hnext]
    rw [hstep, ih2]
    dsimp only
    rw [Prod.mk.injEq]
    refine ⟨?_, rfl⟩
    conv_rhs => rw [List.range_succ_eq_map, List.map_cons, List.map_map]
    rw [List.cons.injEq]
    constructor
    · rw [Vector.mk.injEq]
      push_cast
      constructor <;> omega
    · apply List.map_congr_left
      intro i _
      simp only [Function.comp]
      rw [Vector.mk.injEq]
      push_cast
      constructor <;> omega

lemma posRun_grid (m : Nat) : ∀ y w h : Int, 0 < w → y + (m : Int) = h →
    posRun (m * w.toNat) ⟨⟨0, y⟩, ⟨w, h⟩⟩ =
      ((List.range m).flatMap fun (j : Nat) =>
          (List.range w.toNat).map fun (i : Nat) => ⟨(i : Int), y + (j : Int)⟩,
        ⟨⟨0, h⟩, ⟨w, h⟩⟩) := by
  induction m with
  | zero =>
    intro y w h hw hyh
    have : y = h := by push_cast at hyh; omega
    subst this
    simp [posRun]
  | succ k ih =>
    intro y w h hw hyh
    have hsplit : (k + 1) * w.toNat = w.toNat + k * w.toNat := by ring
    have hwk : w.toNat = (w.toNat - 1) + 1 := by omega
    have hrow : posRun w.toNat ⟨⟨0, y⟩, ⟨w, h⟩⟩ =
        (((List.range w.toNat).map fun (i : Nat) => ⟨0 + (i : Int), y⟩),
          ⟨⟨0, y + 1⟩, ⟨w, h⟩⟩) := by
      rw [hwk]
      exact posRun_row (w.toNat - 1) 0 y w h (by omega)
        (by push_cast at hyh; omega)
    have ih2 := ih (y + 1) w h hw (by push_cast at hyh ⊢; omega)
    rw [hsplit, posRun_add, hrow, ih2]
    refine Prod.ext ?_ rfl
    show _ ++ _ = _
    rw [List.range_succ_eq_map, List.flatMap_cons, List.flatMap_map]
    refine congrArg₂ _ ?_ ?_
    · apply List.map_congr_left
      intro i _
      rw [Vector.mk.injEq]
      push_cast
      constructor <;> omega
    · have hfun : (fun (j : Nat) =>
          (List.range w.toNat).map fun (i : Nat) => (⟨(i : Int), y + 1 + (j : Int)⟩ : Vector)) =
          fun (j : Nat) =>
          (List.range w.toNat).map fun (i : Nat) => (⟨(i : Int), y + (Nat.succ j : Int)⟩ : Vector) := by
        funext j
        apply List.map_congr_left
        intro i _
        rw [Vector.mk.injEq]
        push_cast
        constructor <;> omega
      rw [hfun]

/-- C4: for positive dimensions, the `positions` iterator of a
`width × height` grid yields exactly the `width * height` row-major positions
(`y` outer, `x` inner) and then terminates; concretely a 3×2 grid's positions
are `(0,0), (1,0), (2,0), (0,1), (1,1), (2,1)` and then `None`. -/
theorem spec_c4 :
    (∀ (T : Type) (g : Grid T), 0 < g.dim.x → 0 < g.dim.y →
        posRun (g.dim.y.toNat * g.dim.x.toNat) g.positions =
            (rowMajor g.dim.x g.dim.y, ⟨⟨0, g.dim.y⟩, g.dim⟩) ∧
          Positions.next ⟨⟨0, g.dim.y⟩, g.dim⟩ = none ∧
          (rowMajor g.dim.x g.dim.y).length = g.dim.x.toNat * g.dim.y.toNat) ∧
      ((Grid.new 3 2 (0 : Nat)).map fun g => posRun 6 g.positions) =
          some ([⟨0, 0⟩, ⟨1, 0⟩, ⟨2, 0⟩, ⟨0, 1⟩, ⟨1, 1⟩, ⟨2, 1⟩], ⟨⟨0, 2⟩, ⟨3, 2⟩⟩) ∧
      Positions.next ⟨⟨0, 2⟩, ⟨3, 2⟩⟩ = none := by
  refine ⟨?_, by decide, by decide⟩
  intro T g hx hy
  obtain ⟨dat, wx, wy⟩ := g
  dsimp [Grid.positions] at *
  refine ⟨?_, ?_, ?_⟩
  · have hmain := posRun_grid wy.toNat 0 wx wy hx (by omega)
    rw [hmain, rowMajor]
    have hfun : (fun (j : Nat) =>
        (List.range wx.toNat).map fun (i : Nat) => (⟨(i : Int), 0 + (j : Int)⟩ : Vector)) =
        fun (j : Nat) =>
        (List.range wx.toNat).map fun (i : Nat) => (⟨(i : Int), (j : Int)⟩ : Vector) := by
      funext j
      apply List.map_congr_left
      intro i _
      rw [Vector.mk.injEq]
      constructor
      · rfl
      · omega
    rw [hfun]
  · simp [Positions.next]
  · rw [rowMajor]
    have hlen := len_flatMap_const
      (fun (y : Nat) => (List.range wx.toNat).map fun (x : Nat) => (⟨(x : Int), (y : Int)⟩ : Vector))
      wx.toNat (List.range wy.toNat)
      (fun a _ => by rw [List.length_map, List.length_range])
    rw [hlen, List.length_range, Nat.mul_comm]

/-- Witness for C4's general part at a concrete 3×2 grid. -/
theorem spec_c4_witness :
    posRun ((2 : Int).toNat * (3 : Int).toNat)
        (⟨List.replicate 6 0, ⟨3, 2⟩⟩ : Grid Nat).positions =
        (rowMajor 3 2, ⟨⟨0, 2⟩, ⟨3, 2⟩⟩) ∧
      Positions.next ⟨⟨0, 2⟩, ⟨3, 2⟩⟩ = none ∧
      (rowMajor 3 2).length = (3 : Int).toNat * (2 : Int).toNat :=
  spec_c4.1 Nat ⟨List.replicate 6 0, ⟨3, 2⟩⟩ (by decide) (by decide)

lemma get_pos_conv_none {T C : Type} (a : Array2D T) (conv : C → Option Nat)
    (p : C × C) (h : conv p.1 = none ∨ conv p.2 = none) :
    a.get_pos conv p = none := by
  unfold Array2D.get_pos
  cases h with
  | inl h1 =>
    rw [h1]
  | inr h2 =>
    rw [h2]
    cases conv p.1 <;> rfl

/-- C8: for coordinate-pair addressing, a component whose `TryInto<usize>`
conversion fails makes `get`, `get_mut` and `set` report absence and
`in_bounds` report `false` (never wraparound, never a fatal error); the
`i64 → usize` conversion fails exactly on negative values; concretely a 15×14
array has `in_bounds((-1, 5)) = false`, `get((-1, 5)) = None`, while the index
operator on `(-1, 5)` fails fatally (modelled by `none`). -/
theorem spec_c8 :
    (∀ (T C : Type) (a : Array2D T) (conv : C → Option Nat) (p : C × C) (v : T),
        conv p.1 = none ∨ conv p.2 = none →
          a.in_bounds conv p = false ∧ a.get conv p = none ∧
            a.get_mut conv p = none ∧ a.set conv p v = (none, a)) ∧
      (∀ x : Int, i64ToUsize x = none ↔ x < 0) ∧
      ((Array2D.new 15 14 (11 : Nat)).map fun a =>
          (a.in_bounds i64ToUsize (-1, 5), a.get i64ToUsize (-1, 5),
            a.index i64ToUsize (-1, 5))) = some (false, none, none) := by
  refine ⟨?_, ?_, by decide⟩
  · intro T C a conv p v h
    have hp := get_pos_conv_none a conv p h
    refine ⟨?_, ?_, ?_, ?_⟩
    · rw [Array2D.in_bounds, hp]
      rfl
    · rw [Array2D.get, hp]
      rfl
    · rw [Array2D.get_mut, hp]
      rfl
    · rw [Array2D.set, hp]
  · intro x
    unfold i64ToUsize
    by_cases hx : 0 ≤ x
    · simp [hx]
    · simp [hx]
      omega

/-- Witness for C8's general part at a 15×14 array and position `(-1, 5)`. -/
theorem spec_c8_witness :
    (⟨List.replicate 210 11, 15, 14⟩ : Array2D Nat).in_bounds i64ToUsize (-1, 5) = false ∧
      (⟨List.replicate 210 11, 15, 14⟩ : Array2D Nat).get i64ToUsize (-1, 5) = none ∧
      (⟨List.replicate 210 11, 15, 14⟩ : Array2D Nat).get_mut i64ToUsize (-1, 5) = none ∧
      (⟨List.replicate 210 11, 15, 14⟩ : Array2D Nat).set i64ToUsize (-1, 5) 3 =
        (none, ⟨List.replicate 210 11, 15, 14⟩) :=
  spec_c8.1 Nat Int ⟨List.replicate 210 11, 15, 14⟩ i64ToUsize (-1, 5) 3 (Or.inl (by decide))

lemma map_get {T U : Type} (g : Grid T) (f : T → U) (p : Vector) :
    (g.map f).get p = (g.get p).map f := by
  have hidx : (g.map f).get_index p = g.get_index p := rfl
  rw [Grid.get, Grid.get, hidx]
  cases h : g.get_index p with
  | none => rfl
  | some i =>
    show (g.data.map f)[i]? = (g.data[i]?).map f
    exact List.getElem?_map f g.data i

lemma concatAll_append (l₁ l₂ : List String) :
    concatAll (l₁ ++ l₂) = concatAll l₁ ++ concatAll l₂ := by
  induction l₁ with
  | nil => simp [concatAll, String.empty_append]
  | cons s t ih => simp [concatAll, ih, String.append_assoc]

lemma sepJoin_append_last (sep : String) :
    ∀ (l : List String) (a : String),
      sepJoin sep (l ++ [a]) = concatAll (l.map fun s => s ++ sep) ++ a := by
  intro l
  induction l with
  | nil =>
    intro a
    simp [sepJoin, concatAll, String.empty_append]
  | cons s t ih =>
    intro a
    cases t with
    | nil => simp [sepJoin, concatAll, String.append_assoc, String.append_empty]
    | cons b t2 =>
      have hstep : sepJoin sep ((s :: b :: t2) ++ [a]) =
          s ++ sep ++ sepJoin sep ((b :: t2) ++ [a]) := rfl
      rw [hstep, ih a]
      simp [concatAll, String.append_assoc]

lemma concat_condSep (sep : String) (c : Nat → String) (n : Nat) :
    concatAll ((List.range (n + 1)).map fun i => c i ++ if i ≠ n then sep else "") =
      sepJoin sep ((List.range (n + 1)).map c) := by
  have h1 : (List.range n).map (fun i => c i ++ if i ≠ n then sep else "") =
      (List.range n).map fun i => c i ++ sep := by
    apply List.map_congr_left
    intro i hi
    rw [List.mem_range] at hi
    rw [if_pos (by omega)]
  rw [List.range_succ, List.map_append, List.map_append]
  simp only [List.map_cons, List.map_nil]
  rw [concatAll_append, sepJoin_append_last, List.map_map, h1]
  have h2 : ((fun s => s ++ sep) ∘ c) = fun i => c i ++ sep := rfl
  rw [h2]
  simp [concatAll, String.append_empty]

/-- C7 (amended): the debug rendering is the header line `"<width>x<height>"`
followed by one line per row in which each cell's textual representation is
left-padded with spaces (right-aligned) to the width of the longest cell
string in the grid, a comma between consecutive columns, a newline between
rows and no trailing newline; in particular the 2×2 grid `[9, 10; 1, 100]`
renders as `"2x2\n  9, 10\n  1,100"`. -/
theorem spec_c7 :
    (∀ (T : Type) (g : Grid T) (toStr : T → String), g.Wf →
        debugFmt g toStr = debugFmtSpec g toStr) ∧
      debugFmt (⟨[9, 10, 1, 100], ⟨2, 2⟩⟩ : Grid Nat) toString = "2x2\n  9, 10\n  1,100" := by
  refine ⟨?_, by decide⟩
  intro T g toStr hWf
  obtain ⟨hw, hh, _, _⟩ := hWf
  obtain ⟨n, hn⟩ : ∃ n, g.dim.x.toNat = n + 1 := ⟨g.dim.x.toNat - 1, by omega⟩
  obtain ⟨m, hm⟩ : ∃ m, g.dim.y.toNat = m + 1 := ⟨g.dim.y.toNat - 1, by omega⟩
  have hdata : (Grid.map g toStr).data = g.data.map toStr := rfl
  rw [debugFmt, debugFmtSpec]
  simp only [map_get, hdata, hn, hm, Nat.add_sub_cancel]
  congr 1
  have hrow : ∀ y : Nat,
      concatAll ((List.range (n + 1)).map fun (x : Nat) =>
        padLeft (longestLen (g.data.map toStr))
            (((g.get ⟨(x : Int), (y : Int)⟩).map toStr).getD "") ++
          if x ≠ n then "," else "") =
      sepJoin "," ((List.range (n + 1)).map fun (x : Nat) =>
        padLeft (longestLen (g.data.map toStr))
          (((g.get ⟨(x : Int), (y : Int)⟩).map toStr).getD "")) := fun y =>
    concat_condSep ","
      (fun (x : Nat) => padLeft (longestLen (g.data.map toStr))
        (((g.get ⟨(x : Int), (y : Int)⟩).map toStr).getD "")) n
  simp only [hrow]
  exact concat_condSep "\n"
    (fun (y : Nat) => sepJoin "," ((List.range (n + 1)).map fun (x : Nat) =>
      padLeft (longestLen (g.data.map toStr))
        (((g.get ⟨(x : Int), (y : Int)⟩).map toStr).getD ""))) m

/-- Witness for C7's general part at the concrete 2×2 grid `[9, 10; 1, 100]`. -/
theorem spec_c7_witness :
    debugFmt (⟨[9, 10, 1, 100], ⟨2, 2⟩⟩ : Grid Nat) toString =
      debugFmtSpec (⟨[9, 10, 1, 100], ⟨2, 2⟩⟩ : Grid Nat) toString :=
  spec_c7.1 Nat ⟨[9, 10, 1, 100], ⟨2, 2⟩⟩ toString (by decide)

/-- C7 counterexample: the code renders the 2×2 grid `[9, 10; 1, 100]` as
`"2x2\n  9, 10\n  1,100"`, which differs from the rendering obtained by
right-padding each cell (spaces appended) as the claim states, so the cells are
left-padded (right-aligned), not right-padded. -/
theorem spec_c7_counterexample :
    debugFmt (⟨[9, 10, 1, 100], ⟨2, 2⟩⟩ : Grid Nat) toString = "2x2\n  9, 10\n  1,100" ∧
      debugFmtRightPad (⟨[9, 10, 1, 100], ⟨2, 2⟩⟩ : Grid Nat) toString ≠
        debugFmt (⟨[9, 10, 1, 100], ⟨2, 2⟩⟩ : Grid Nat) toString :=
  ⟨by decide, by decide⟩

end GridLib
